import Mathlib

/-!
Shallow embedding of the basictodo AI task-assistant request handler
(`src/unnamed/part_005`, route `POST`), its data-access layer
(`src/packages/utils/src/tasks.ts`), its zod request/argument validators
(`src/packages/utils/src/schema.ts`) and the language-model invocation
adapter (`src/packages/utils/src/email.ts`, `processAIChat`), together with
theorems settling the specification claims about them.

Modelling conventions:
* JavaScript / JSON values are the inductive `JValue`; `undefined` is
  represented by `Option` (`none` = absent / undefined).  JS numbers are
  carried as an `Int` together with an integrality flag (the fractional
  part is irrelevant to every code path embedded here); `NaN` is a
  separate constructor.
* Timestamps are epoch seconds (`Int`).  ISO 8601 date-time strings (the
  form the schemas admit) are parsed by `parseIsoDate`, which models the
  JavaScript `new Date(string)` constructor on those formats; an
  unparseable string behaves like `NaN` (all comparisons false), matching
  JS semantics.  `tz` is the runtime's local UTC offset in seconds.
* The task store (Supabase/PostgREST) is external to the repository; it is
  embedded as a `Store` value holding the rows together with a log of
  table accesses, with row-level security modelled by scoping every
  operation to the authenticated user's rows.
* Fallible TypeScript code (throwing functions) returns `Except String`.
-/

namespace BasicTodo

/-- A JSON / JavaScript value.  `num n isInt` is a JS number whose
integer part is `n`; `isInt` is false for values with a fractional part
(whose exact fraction no embedded code path inspects).  `nan` is the JS
`NaN`. -/
inductive JValue where
  | null
  | bool (b : Bool)
  | num (n : Int) (isInt : Bool)
  | nan
  | str (s : String)
  | arr (elems : List JValue)
  | obj (fields : List (String × JValue))

/-- Last-occurrence lookup in a JS object's field list (JSON.parse keeps
the last of duplicate keys; JS property reads observe that value).
Returns `none` for an absent key, i.e. `undefined`. -/
def jLookup (fields : List (String × JValue)) (k : String) : Option JValue :=
  (fields.reverse.find? (fun p => p.1 == k)).map Prod.snd

/-- JS property access `v[k]` for the cases the handler exercises:
objects yield the field (or `undefined`), primitives yield `undefined`
(string index properties are not exercised and are elided).  Property
access on `null` throws and is handled at call sites via `jProp`. -/
def jGet (v : JValue) (k : String) : Option JValue :=
  match v with
  | .obj fs => jLookup fs k
  | _ => none

/-- JS property access that models the `TypeError` thrown when reading a
property of `null`. -/
def jProp (v : JValue) (k : String) : Except String (Option JValue) :=
  match v with
  | .null => .error ("Cannot read properties of null (reading " ++ k ++ ")")
  | .obj fs => .ok (jLookup fs k)
  | _ => .ok none

/-- Remove every binding of key `k` (models object rest-destructuring
`const \x7b k, ...rest \x7d = o`, observably, given that all lookups are
by key). -/
def jRemoveKey (fields : List (String × JValue)) (k : String) :
    List (String × JValue) :=
  fields.filter (fun p => p.1 ≠ k)

/-! ### String helpers (JS `includes` / `toLowerCase`) -/

/-- `listIsPrefix n h` is true when `n` is a prefix of `h`. -/
def listIsPrefix : List Char → List Char → Bool
  | [], _ => true
  | _ :: _, [] => false
  | c :: cs, d :: ds => c == d && listIsPrefix cs ds

/-- `listContainsSub n h` is true when `n` occurs contiguously in `h`. -/
def listContainsSub (needle : List Char) : List Char → Bool
  | [] => needle.isEmpty
  | d :: rest => listIsPrefix needle (d :: rest) || listContainsSub needle rest

/-- JS `hay.includes(needle)`. -/
def strContains (hay needle : String) : Bool :=
  listContainsSub needle.toList hay.toList

/-- JS `s.startsWith(pre)`. -/
def strStartsWith (s pre : String) : Bool :=
  listIsPrefix pre.toList s.toList

/-- JS `s.substring(n)` (ASCII range). -/
def strDrop (s : String) (n : Nat) : String :=
  ⟨s.toList.drop n⟩

/-- JS `s.toLowerCase()` (ASCII range, which is all the embedded strings
use). -/
def lowerStr (s : String) : String := s.map Char.toLower

/-! ### A JSON parser (models the JS `JSON.parse` used on the model's
tool-call argument strings; returns `none` where `JSON.parse` throws). -/

/-- Skip JSON whitespace. -/
def skipWs : List Char → List Char
  | c :: cs =>
    if c = ' ' ∨ c = '\n' ∨ c = '\t' ∨ c = '\r' then skipWs cs else c :: cs
  | [] => []

/-- Parse the remainder of a JSON string literal (after the opening
quote), handling the standard escapes. -/
def parseStringRest : List Char → Option (String × List Char)
  | [] => none
  | '"' :: rest => some ("", rest)
  | '\\' :: c :: rest =>
    match c with
    | '"' => (parseStringRest rest).map (fun p => (⟨'"' :: p.1.toList⟩, p.2))
    | '\\' => (parseStringRest rest).map (fun p => (⟨'\\' :: p.1.toList⟩, p.2))
    | '/' => (parseStringRest rest).map (fun p => (⟨'/' :: p.1.toList⟩, p.2))
    | 'n' => (parseStringRest rest).map (fun p => (⟨'\n' :: p.1.toList⟩, p.2))
    | 't' => (parseStringRest rest).map (fun p => (⟨'\t' :: p.1.toList⟩, p.2))
    | 'r' => (parseStringRest rest).map (fun p => (⟨'\r' :: p.1.toList⟩, p.2))
    | _ => none
  | c :: rest =>
    if c = '\\' ∨ c = '"' then none
    else (parseStringRest rest).map (fun p => (⟨c :: p.1.toList⟩, p.2))

/-- Digits of a number literal. -/
def spanDigits (cs : List Char) : List Char × List Char :=
  cs.span Char.isDigit

/-- Decimal value of a digit list. -/
def digitsToInt (ds : List Char) : Int :=
  ((ds.foldl (fun a c => a * 10 + (c.toNat - 48)) 0 : Nat) : Int)

/-- Parse a JSON number literal.  The integer part is kept exactly; a
fractional part or exponent only clears the integrality flag (no embedded
code path reads the fraction). -/
def parseNum (cs : List Char) : Option (JValue × List Char) :=
  let (neg, cs₁) := match cs with
    | '-' :: rest => (true, rest)
    | _ => (false, cs)
  let (ds, cs₂) := spanDigits cs₁
  if ds.isEmpty then none
  else
    let n : Int := if neg then -(digitsToInt ds) else digitsToInt ds
    let (hasFrac, cs₃) := match cs₂ with
      | '.' :: rest =>
        let p := spanDigits rest
        if p.1.isEmpty then (none, cs₂) else (some true, p.2)
      | _ => (some false, cs₂)
    match hasFrac with
    | none => none
    | some frac =>
      let (hasExp, cs₄) := match cs₃ with
        | 'e' :: rest => (some true, rest)
        | 'E' :: rest => (some true, rest)
        | _ => (some false, cs₃)
      match hasExp with
      | none => none
      | some ex =>
        if ex then
          let cs₅ := match cs₄ with
            | '+' :: rest => rest
            | '-' :: rest => rest
            | _ => cs₄
          let p := spanDigits cs₅
          if p.1.isEmpty then none
          else some (.num n false, p.2)
        else some (.num n (!frac), cs₄)

mutual

/-- Parse one JSON value. -/
def parseVal : Nat → List Char → Option (JValue × List Char)
  | 0, _ => none
  | fuel + 1, cs =>
    match skipWs cs with
    | 'n' :: 'u' :: 'l' :: 'l' :: rest => some (.null, rest)
    | 't' :: 'r' :: 'u' :: 'e' :: rest => some (.bool true, rest)
    | 'f' :: 'a' :: 'l' :: 's' :: 'e' :: rest => some (.bool false, rest)
    | '"' :: rest => (parseStringRest rest).map (fun p => (.str p.1, p.2))
    | '[' :: rest =>
      (match skipWs rest with
       | ']' :: rest' => some (.arr [], rest')
       | cs' => (parseElems fuel cs').map (fun p => (.arr p.1, p.2)))
    | '{' :: rest =>
      (match skipWs rest with
       | '}' :: rest' => some (.obj [], rest')
       | cs' => (parseFields fuel cs').map (fun p => (.obj p.1, p.2)))
    | cs' => parseNum cs'

/-- Parse a nonempty comma-separated list of array elements up to `]`. -/
def parseElems : Nat → List Char → Option (List JValue × List Char)
  | 0, _ => none
  | fuel + 1, cs =>
    match parseVal fuel cs with
    | none => none
    | some (v, rest) =>
      match skipWs rest with
      | ',' :: rest' =>
        (parseElems fuel rest').map (fun p => (v :: p.1, p.2))
      | ']' :: rest' => some ([v], rest')
      | _ => none

/-- Parse a nonempty comma-separated list of object fields up to the
closing brace. -/
def parseFields : Nat → List Char → Option (List (String × JValue) × List Char)
  | 0, _ => none
  | fuel + 1, cs =>
    match skipWs cs with
    | '"' :: rest =>
      (match parseStringRest rest with
       | none => none
       | some (k, rest₁) =>
         match skipWs rest₁ with
         | ':' :: rest₂ =>
           (match parseVal fuel rest₂ with
            | none => none
            | some (v, rest₃) =>
              match skipWs rest₃ with
              | ',' :: rest₄ =>
                (parseFields fuel rest₄).map (fun p => ((k, v) :: p.1, p.2))
              | '}' :: rest₄ => some ([(k, v)], rest₄)
              | _ => none)
         | _ => none)
    | _ => none

end

/-- JS `JSON.parse` on the tool-call argument string: `none` where it
would throw. -/
def jsonParse (s : String) : Option JValue :=
  match parseVal (s.length + 1) s.toList with
  | some (v, rest) => if (skipWs rest).isEmpty then some v else none
  | none => none

/-! ### Task enums (schema.ts `TaskStatus`, `TaskPriority`, `TaskCategory`) -/

inductive TaskStatus where
  | pending
  | done
deriving DecidableEq, Repr

inductive TaskPriority where
  | low
  | medium
  | high
  | urgent
deriving DecidableEq, Repr

inductive TaskCategory where
  | personal
  | work
  | health
  | finance
  | education
  | shopping
  | other
deriving DecidableEq, Repr

/-! ### Date-time strings

`schema.ts` admits due dates either as a zod `datetime()` string (ISO
8601 with seconds and a terminal `Z`) or as the `datetime-local` form
`YYYY-MM-DDTHH:MM`. -/

/-- Consume exactly `n` decimal digits. -/
def chompDigits : Nat → List Char → Option (List Char)
  | 0, cs => some cs
  | n + 1, c :: cs => if c.isDigit then chompDigits n cs else none
  | _ + 1, [] => none

/-- Consume one expected literal character. -/
def chompLit (c : Char) : List Char → Option (List Char)
  | c' :: cs => if c' = c then some cs else none
  | [] => none

/-- Shared `\d\x7b4\x7d-\d\x7b2\x7d-\d\x7b2\x7dT\d\x7b2\x7d:\d\x7b2\x7d`
prefix of both admitted forms. -/
def chompDateTimeCore (cs : List Char) : Option (List Char) := do
  let cs ← chompDigits 4 cs
  let cs ← chompLit '-' cs
  let cs ← chompDigits 2 cs
  let cs ← chompLit '-' cs
  let cs ← chompDigits 2 cs
  let cs ← chompLit 'T' cs
  let cs ← chompDigits 2 cs
  let cs ← chompLit ':' cs
  chompDigits 2 cs

/-- The `datetime-local` regex of `CreateTaskSchema`/`UpdateTaskSchema`:
`^\d\x7b4\x7d-\d\x7b2\x7d-\d\x7b2\x7dT\d\x7b2\x7d:\d\x7b2\x7d$`. -/
def isDatetimeLocal (s : String) : Bool :=
  chompDateTimeCore s.toList == some []

/-- zod's `z.string().datetime()` shape: the core, then seconds, an
optional fractional part, and a terminal `Z`. -/
def isZodDatetime (s : String) : Bool :=
  match chompDateTimeCore s.toList with
  | none => false
  | some cs =>
    match chompLit ':' cs with
    | none => false
    | some cs₁ =>
      match chompDigits 2 cs₁ with
      | none => false
      | some cs₂ =>
        let cs₃ := match cs₂ with
          | '.' :: rest =>
            let p := rest.span Char.isDigit
            if p.1.isEmpty then '.' :: rest else p.2
          | _ => cs₂
        cs₃ == ['Z']

/-! ### Instants

`parseIsoDate` models `new Date(s)` (JS) on the two admitted formats,
returning epoch seconds; `none` models an invalid date (`NaN`), for
which every JS comparison is false.  `tz` is the runtime's local UTC
offset in seconds (local civil time = UTC + `tz`); a string without the
`Z` suffix is interpreted as local time, as `new Date` does for
date-time forms. -/

/-- Days from the epoch of a proleptic-Gregorian civil date
(Hinnant's algorithm; divisions are exact on the shifted values). -/
def daysFromCivil (y m d : Int) : Int :=
  let y' := if m ≤ 2 then y - 1 else y
  let era := (if 0 ≤ y' then y' else y' - 399) / 400
  let yoe := y' - era * 400
  let mp := (m + 9) % 12
  let doy := (153 * mp + 2) / 5 + d - 1
  let doe := yoe * 365 + yoe / 4 - yoe / 100 + doy
  era * 146097 + doe - 719468

/-- Gregorian leap year. -/
def isLeap (y : Int) : Bool := (y % 4 == 0 && y % 100 != 0) || y % 400 == 0

/-- Days in a month. -/
def daysInMonth (y m : Int) : Int :=
  if m = 2 then (if isLeap y then 29 else 28)
  else if m = 4 ∨ m = 6 ∨ m = 9 ∨ m = 11 then 30
  else 31

/-- Grab exactly `n` digits and their value. -/
def grabDigits (n : Nat) (cs : List Char) : Option (Int × List Char) :=
  let pre := cs.take n
  if pre.length = n && pre.all Char.isDigit then
    some (digitsToInt pre, cs.drop n)
  else none

/-- Optional `:SS` seconds component. -/
def parseSecPart : List Char → Option (Int × List Char)
  | ':' :: rest => grabDigits 2 rest
  | cs => some (0, cs)

/-- Skip an optional `.fff...` fractional part (sub-second precision is
below this embedding's resolution). -/
def skipFrac : List Char → List Char
  | '.' :: rest =>
    let p := rest.span Char.isDigit
    if p.1.isEmpty then '.' :: rest else p.2
  | cs => cs

/-- `new Date(s)` on the admitted ISO forms, as epoch seconds. -/
def parseIsoDate (tz : Int) (s : String) : Option Int := do
  let cs := s.toList
  let (y, cs) ← grabDigits 4 cs
  let cs ← chompLit '-' cs
  let (mo, cs) ← grabDigits 2 cs
  let cs ← chompLit '-' cs
  let (d, cs) ← grabDigits 2 cs
  let cs ← chompLit 'T' cs
  let (h, cs) ← grabDigits 2 cs
  let cs ← chompLit ':' cs
  let (mi, cs) ← grabDigits 2 cs
  let (sec, cs) ← parseSecPart cs
  let cs := skipFrac cs
  let utc ← match cs with
    | ['Z'] => some true
    | [] => some false
    | _ => none
  if 1 ≤ mo ∧ mo ≤ 12 ∧ 1 ≤ d ∧ d ≤ daysInMonth y mo ∧
      h ≤ 23 ∧ mi ≤ 59 ∧ sec ≤ 59 then
    let civil := daysFromCivil y mo d * 86400 + h * 3600 + mi * 60 + sec
    some (if utc then civil else civil - tz)
  else none

/-- `new Date(s) < t` (false when the date is invalid, like `NaN`). -/
def dateLt (tz : Int) (s : String) (t : Int) : Bool :=
  match parseIsoDate tz s with
  | some v => decide (v < t)
  | none => false

/-- `new Date(s) > t` (false when the date is invalid). -/
def dateGt (tz : Int) (s : String) (t : Int) : Bool :=
  match parseIsoDate tz s with
  | some v => decide (t < v)
  | none => false

/-- Epoch seconds of local midnight of the current local day: the
handler's `new Date(today.getFullYear(), today.getMonth(),
today.getDate())`. -/
def startOfDayUtc (tz now : Int) : Int :=
  ((now + tz).fdiv 86400) * 86400 - tz

/-! ### Validators (schema.ts)

zod's `.parse` on an object schema type-checks the declared keys and
strips undeclared ones; the outputs below therefore carry exactly the
declared fields.  An inner `Option` distinguishes an explicit `null`
(`some none`) from an absent key (`none`) where the schema admits both.
Error strings follow zod's issue messages (the custom messages declared
in the schema, else zod's defaults); none of them contains the word
spelled v-a-l-i-d-a-t-i-o-n, which clause the handler's catch block
tests for. -/

/-- zod's name for a value's type, used in default error messages. -/
def typeName : JValue → String
  | .null => "null"
  | .bool _ => "boolean"
  | .num _ _ => "number"
  | .nan => "nan"
  | .str _ => "string"
  | .arr _ => "array"
  | .obj _ => "object"

/-- `CreateTaskSchema.parse` output. -/
structure CreateTaskInput where
  title : String
  description : Option String := none
  due_at : Option (Option String) := none
  priority : Option TaskPriority := none
  category : Option TaskCategory := none
  tags : Option (List String) := none
  estimated_duration_minutes : Option Int := none
  notes : Option String := none
deriving DecidableEq, Repr

/-- `UpdateTaskSchema.parse` output. -/
structure UpdateTaskInput where
  title : Option String := none
  description : Option String := none
  due_at : Option (Option String) := none
  status : Option TaskStatus := none
  priority : Option TaskPriority := none
  category : Option TaskCategory := none
  tags : Option (List String) := none
  estimated_duration_minutes : Option Int := none
  notes : Option String := none
deriving DecidableEq, Repr

/-- `ChatRequestSchema.parse` output (the optional `context` field is
never supplied by the embedded callers and its inner checks are
elided). -/
structure ChatRequestInput where
  message : String
deriving DecidableEq, Repr

/-- An optional plain-string field. -/
def parseOptStr (fs : List (String × JValue)) (k : String) :
    Except String (Option String) :=
  match jLookup fs k with
  | none => .ok none
  | some (.str s) => .ok (some s)
  | some v => .error ("Expected string, received " ++ typeName v)

/-- `title` on `CreateTaskSchema`: required,
`min(1, 'Task title is required').max(500, 'Task title too long')`. -/
def parseTitleReq (fs : List (String × JValue)) : Except String String :=
  match jLookup fs "title" with
  | none => .error "Required"
  | some (.str s) =>
    if s.length < 1 then .error "Task title is required"
    else if s.length > 500 then .error "Task title too long"
    else .ok s
  | some v => .error ("Expected string, received " ++ typeName v)

/-- `title` on `UpdateTaskSchema`: same bounds, but optional. -/
def parseTitleOpt (fs : List (String × JValue)) :
    Except String (Option String) :=
  match jLookup fs "title" with
  | none => .ok none
  | some (.str s) =>
    if s.length < 1 then .error "Task title is required"
    else if s.length > 500 then .error "Task title too long"
    else .ok (some s)
  | some v => .error ("Expected string, received " ++ typeName v)

/-- `due_at`: optional union of a zod datetime, the datetime-local
regex, and `null`. -/
def parseDueAt (fs : List (String × JValue)) :
    Except String (Option (Option String)) :=
  match jLookup fs "due_at" with
  | none => .ok none
  | some .null => .ok (some none)
  | some (.str s) =>
    if isZodDatetime s || isDatetimeLocal s then .ok (some (some s))
    else .error "Invalid datetime format"
  | some v => .error ("Expected string, received " ++ typeName v)

/-- `priority`: optional member of `TaskPriority`. -/
def parsePriority (fs : List (String × JValue)) :
    Except String (Option TaskPriority) :=
  match jLookup fs "priority" with
  | none => .ok none
  | some (.str "low") => .ok (some .low)
  | some (.str "medium") => .ok (some .medium)
  | some (.str "high") => .ok (some .high)
  | some (.str "urgent") => .ok (some .urgent)
  | some _ => .error "Invalid enum value for priority"

/-- `category`: optional member of `TaskCategory`. -/
def parseCategory (fs : List (String × JValue)) :
    Except String (Option TaskCategory) :=
  match jLookup fs "category" with
  | none => .ok none
  | some (.str "personal") => .ok (some .personal)
  | some (.str "work") => .ok (some .work)
  | some (.str "health") => .ok (some .health)
  | some (.str "finance") => .ok (some .finance)
  | some (.str "education") => .ok (some .education)
  | some (.str "shopping") => .ok (some .shopping)
  | some (.str "other") => .ok (some .other)
  | some _ => .error "Invalid enum value for category"

/-- `status` on `UpdateTaskSchema`: optional member of `TaskStatus`. -/
def parseStatusOpt (fs : List (String × JValue)) :
    Except String (Option TaskStatus) :=
  match jLookup fs "status" with
  | none => .ok none
  | some (.str "pending") => .ok (some .pending)
  | some (.str "done") => .ok (some .done)
  | some _ => .error "Invalid enum value for status"

/-- `tags`: optional array of strings. -/
def parseTags (fs : List (String × JValue)) :
    Except String (Option (List String)) :=
  match jLookup fs "tags" with
  | none => .ok none
  | some (.arr xs) =>
    match xs.mapM (fun x => match x with | .str s => some s | _ => none) with
    | some ss => .ok (some ss)
    | none => .error "Expected string, received non-string tag"
  | some v => .error ("Expected array, received " ++ typeName v)

/-- `estimated_duration_minutes`:
`z.number().int().min(1).max(1440).optional().or(z.nan().transform(...))`;
a `NaN` collapses to `undefined`, anything else must be an integer in
`[1, 1440]`. -/
def parseEstDur (fs : List (String × JValue)) :
    Except String (Option Int) :=
  match jLookup fs "estimated_duration_minutes" with
  | none => .ok none
  | some (.num n true) =>
    if 1 ≤ n ∧ n ≤ 1440 then .ok (some n)
    else .error "Number out of range"
  | some (.num _ false) => .error "Expected integer, received float"
  | some .nan => .ok none
  | some v => .error ("Expected number, received " ++ typeName v)

/-- `validateCreateTask` = `CreateTaskSchema.parse`. -/
def validateCreateTask (data : JValue) : Except String CreateTaskInput :=
  match data with
  | .obj fs => do
    let title ← parseTitleReq fs
    let description ← parseOptStr fs "description"
    let due_at ← parseDueAt fs
    let priority ← parsePriority fs
    let category ← parseCategory fs
    let tags ← parseTags fs
    let estimated_duration_minutes ← parseEstDur fs
    let notes ← parseOptStr fs "notes"
    .ok { title := title, description := description, due_at := due_at,
          priority := priority, category := category, tags := tags,
          estimated_duration_minutes := estimated_duration_minutes,
          notes := notes }
  | v => .error ("Expected object, received " ++ typeName v)

/-- `validateUpdateTask` = `UpdateTaskSchema.parse`. -/
def validateUpdateTask (data : JValue) : Except String UpdateTaskInput :=
  match data with
  | .obj fs => do
    let title ← parseTitleOpt fs
    let description ← parseOptStr fs "description"
    let due_at ← parseDueAt fs
    let status ← parseStatusOpt fs
    let priority ← parsePriority fs
    let category ← parseCategory fs
    let tags ← parseTags fs
    let estimated_duration_minutes ← parseEstDur fs
    let notes ← parseOptStr fs "notes"
    .ok { title := title, description := description, due_at := due_at,
          status := status, priority := priority, category := category,
          tags := tags,
          estimated_duration_minutes := estimated_duration_minutes,
          notes := notes }
  | v => .error ("Expected object, received " ++ typeName v)

/-- `validateChatRequest` = `ChatRequestSchema.parse`:
`message: z.string().min(1, 'Message is required').max(2000, 'Message
too long')`. -/
def validateChatRequest (data : JValue) : Except String ChatRequestInput :=
  match data with
  | .obj fs =>
    match jLookup fs "message" with
    | none => .error "Required"
    | some (.str s) =>
      if s.length < 1 then .error "Message is required"
      else if s.length > 2000 then .error "Message too long"
      else .ok { message := s }
    | some v => .error ("Expected string, received " ++ typeName v)
  | v => .error ("Expected object, received " ++ typeName v)

/-! ### The task store

A `tasks` table row (`TaskSchema` / migration `001_initial_schema.sql`).
`created_at`/`updated_at`/`last_reminder_sent` are epoch seconds;
`due_at` is kept as the stored ISO string, since the code both writes it
verbatim from validated input and re-parses it with `new Date` when
filtering. -/
structure Task where
  id : String
  user_id : String
  title : String
  description : Option String
  due_at : Option String
  status : TaskStatus
  priority : Option TaskPriority
  category : Option TaskCategory
  tags : Option (List String)
  estimated_duration_minutes : Option Int
  notes : Option String
  created_at : Int
  updated_at : Int
  last_reminder_sent : Option Int
deriving DecidableEq, Repr

/-- A task-table access, recorded so that "no store access" is a
provable statement. -/
inductive StoreOp where
  | select
  | insert
  | update
  | delete
deriving DecidableEq, Repr

/-- The task store (Supabase): rows, a fresh-id source for the
server-assigned uuids, and the access log.  Transport failures are not
modelled (every claim concerns a reachable store). -/
structure Store where
  tasks : List Task
  nextId : Nat
  log : List StoreOp
deriving Repr

/-- Options of `listTasks` (tasks.ts).  The embedded callers (the AI
route) only ever pass the `status` filter; the pagination and
non-default ordering options are never supplied and are elided. -/
structure ListOptions where
  status : Option TaskStatus := none
deriving DecidableEq, Repr

/-- `listTasks` (tasks.ts): select the caller's rows (row-level
security scopes every query to the authenticated user), filter by
status when given, order by `created_at` descending (the default). -/
def listTasks (st : Store) (uid : String) (options : ListOptions) :
    List Task × Store :=
  let rows := st.tasks.filter (fun t =>
    t.user_id == uid &&
    (match options.status with
     | some s => t.status == s
     | none => true))
  let sorted := rows.mergeSort (fun a b => decide (b.created_at ≤ a.created_at))
  (sorted, { st with log := st.log ++ [.select] })

/-- Server-assigned row id. -/
def newTaskId (n : Nat) : String := "task-" ++ toString n

/-- The handler's `validatedInput.due_at || null`: an absent or `null`
due date is stored as SQL `NULL`. -/
def dueAtOrNull : Option (Option String) → Option String
  | some (some s) => some s
  | _ => none

/-- `createTask` (tasks.ts): validate, then insert a row carrying only
`title`, `due_at` (or null), `status: 'pending'` and the caller's
`user_id`; every other column takes its database default (`NULL`).  The
authenticated user is the session's, so the `auth.getUser` failure path
cannot fire here. -/
def createTask (st : Store) (uid : String) (now : Int) (input : JValue) :
    Except String Task × Store :=
  match validateCreateTask input with
  | .error e => (.error e, st)
  | .ok v =>
    let t : Task := {
      id := newTaskId st.nextId
      user_id := uid
      title := v.title
      description := none
      due_at := dueAtOrNull v.due_at
      status := .pending
      priority := none
      category := none
      tags := none
      estimated_duration_minutes := none
      notes := none
      created_at := now
      updated_at := now
      last_reminder_sent := none }
    (.ok t,
     { st with tasks := st.tasks ++ [t], nextId := st.nextId + 1,
               log := st.log ++ [.insert] })

/-- The `.eq('id', taskId)` filter.  The id reaching it is whatever the
model supplied; a non-string (or absent) value cannot name a row and is
modelled as matching none. -/
def idMatches (taskId : Option JValue) (t : Task) : Bool :=
  match taskId with
  | some (.str s) => t.id == s
  | _ => false

/-- Apply a validated partial update to a row: the spread
`\x7b ...validatedInput, updated_at: now \x7d` — present fields
overwrite, `updated_at` is always refreshed, everything else (in
particular `id` and `user_id`) is untouched. -/
def applyUpdate (t : Task) (v : UpdateTaskInput) (now : Int) : Task :=
  { t with
    title := v.title.getD t.title
    description := match v.description with
      | some s => some s
      | none => t.description
    due_at := match v.due_at with
      | some d => d
      | none => t.due_at
    status := v.status.getD t.status
    priority := match v.priority with
      | some p => some p
      | none => t.priority
    category := match v.category with
      | some c => some c
      | none => t.category
    tags := match v.tags with
      | some ts => some ts
      | none => t.tags
    estimated_duration_minutes := match v.estimated_duration_minutes with
      | some n => some n
      | none => t.estimated_duration_minutes
    notes := match v.notes with
      | some s => some s
      | none => t.notes
    updated_at := now }

/-- `updateTask` (tasks.ts): validate, update every row the id filter
matches (scoped to the caller), and return the single updated row;
`.single()` raises `PGRST116` — surfaced as `'Task not found'` — when
the match count is not exactly one. -/
def updateTask (st : Store) (uid : String) (now : Int)
    (taskId : Option JValue) (input : JValue) : Except String Task × Store :=
  match validateUpdateTask input with
  | .error e => (.error e, st)
  | .ok v =>
    let hit := fun t => t.user_id == uid && idMatches taskId t
    let st' := { st with
      tasks := st.tasks.map (fun t => if hit t then applyUpdate t v now else t),
      log := st.log ++ [.update] }
    match (st.tasks.filter hit).map (fun t => applyUpdate t v now) with
    | [t] => (.ok t, st')
    | _ => (.error "Task not found", st')

/-- `deleteTask` (tasks.ts): a plain filtered delete with no `.single()`
and no row-count check — it succeeds whether or not any row matched. -/
def deleteTask (st : Store) (uid : String) (taskId : Option JValue) :
    Except String Unit × Store :=
  (.ok (),
   { st with
     tasks := st.tasks.filter (fun t => !(t.user_id == uid && idMatches taskId t)),
     log := st.log ++ [.delete] })

/-! ### The operation executor (ai-agent route, `POST`, tool loop) -/

/-- A proposed operation invocation after argument-string parsing. -/
structure ToolCall where
  id : String
  function : String
  arguments : JValue

/-- Payload of a successful invocation. -/
inductive ToolData where
  | task (t : Task)
  | tasks (ts : List Task)
  | deleted
deriving Repr

/-- One entry of the response's `toolResults`. -/
structure ToolResult where
  tool : String
  success : Bool
  data : Option ToolData := none
  error : Option String := none
deriving Repr

/-- The `list_tasks` case: narrow `status` inline, list, apply the
`due_filter` post-filter, then the `search` post-filter.  A `search`
value that is truthy but not a string makes `search.toLowerCase()`
throw a `TypeError` inside the per-invocation try. -/
def searchFilter (search : Option JValue) (ts : List Task) :
    Except String (List Task) :=
  match search with
  | some (.str s) =>
    if s = "" then .ok ts
    else .ok (ts.filter (fun t =>
      strContains (lowerStr t.title) (lowerStr s) ||
      (match t.description with
       | some d => strContains (lowerStr d) (lowerStr s)
       | none => false)))
  | none => .ok ts
  | some .null => .ok ts
  | some .nan => .ok ts
  | some (.bool b) =>
    if b then .error "search.toLowerCase is not a function" else .ok ts
  | some (.num n isInt) =>
    if n == 0 && isInt then .ok ts
    else .error "search.toLowerCase is not a function"
  | some (.arr _) => .error "search.toLowerCase is not a function"
  | some (.obj _) => .error "search.toLowerCase is not a function"

/-- The `list_tasks` branch of the executor's switch. -/
def execListTasks (st : Store) (uid : String) (now tz : Int)
    (args : JValue) : Except String (List Task) × Store :=
  match args with
  | .null =>
    (.error "Cannot destructure properties of null", st)
  | _ =>
    let status := jGet args "status"
    let search := jGet args "search"
    let due_filter := jGet args "due_filter"
    let options : ListOptions :=
      { status := match status with
          | some (.str "pending") => some .pending
          | some (.str "done") => some .done
          | _ => none }
    let (base, st₁) := listTasks st uid options
    let filtered :=
      match due_filter with
      | some (.str "today") =>
        let s := startOfDayUtc tz now
        base.filter (fun t =>
          match t.due_at with
          | none => false
          | some ds =>
            match parseIsoDate tz ds with
            | none => false
            | some v => decide (s ≤ v) && decide (v < s + 86400))
      | some (.str "overdue") =>
        base.filter (fun t =>
          match t.due_at with
          | none => false
          | some ds =>
            if t.status == .done then false else dateLt tz ds now)
      | some (.str "upcoming") =>
        base.filter (fun t =>
          match t.due_at with
          | none => false
          | some ds =>
            if t.status == .done then false else dateGt tz ds now)
      | _ => base
    match searchFilter search filtered with
    | .ok res => (.ok res, st₁)
    | .error e => (.error e, st₁)

/-- One iteration of the tool loop: dispatch on the proposed operation
name, run it, and fold any thrown error into a failure result (the
per-invocation `try`/`catch`). -/
def execToolCall (st : Store) (uid : String) (now tz : Int)
    (tc : ToolCall) : ToolResult × Store :=
  match tc.function with
  | "create_task" =>
    (match createTask st uid now tc.arguments with
     | (.ok t, st') =>
       ({ tool := "create_task", success := true, data := some (.task t) }, st')
     | (.error e, st') =>
       ({ tool := "create_task", success := false, error := some e }, st'))
  | "update_task" =>
    (match tc.arguments with
     | .null =>
       ({ tool := "update_task", success := false,
          error := some "Cannot destructure properties of null" }, st)
     | .obj fs =>
       (match updateTask st uid now (jLookup fs "task_id")
              (.obj (jRemoveKey fs "task_id")) with
        | (.ok t, st') =>
          ({ tool := "update_task", success := true, data := some (.task t) }, st')
        | (.error e, st') =>
          ({ tool := "update_task", success := false, error := some e }, st'))
     | _ =>
       (match updateTask st uid now none (.obj []) with
        | (.ok t, st') =>
          ({ tool := "update_task", success := true, data := some (.task t) }, st')
        | (.error e, st') =>
          ({ tool := "update_task", success := false, error := some e }, st')))
  | "delete_task" =>
    (match jProp tc.arguments "task_id" with
     | .error e =>
       ({ tool := "delete_task", success := false, error := some e }, st)
     | .ok taskId =>
       (match deleteTask st uid taskId with
        | (.ok _, st') =>
          ({ tool := "delete_task", success := true, data := some .deleted }, st')
        | (.error e, st') =>
          ({ tool := "delete_task", success := false, error := some e }, st')))
  | "list_tasks" =>
    (match execListTasks st uid now tz tc.arguments with
     | (.ok ts, st') =>
       ({ tool := "list_tasks", success := true, data := some (.tasks ts) }, st')
     | (.error e, st') =>
       ({ tool := "list_tasks", success := false, error := some e }, st'))
  | other =>
    ({ tool := other, success := false,
       error := some ("Unknown function: " ++ other) }, st)

/-- The whole tool loop: one result per proposed invocation, in
invocation order, each iteration starting from the store state the
previous one left. -/
def execToolCalls (uid : String) (now tz : Int) :
    Store → List ToolCall → List ToolResult × Store
  | st, [] => ([], st)
  | st, tc :: rest =>
    let (r, st') := execToolCall st uid now tz tc
    let (rs, st'') := execToolCalls uid now tz st' rest
    (r :: rs, st'')

/-! ### The assistant invocation adapter (email.ts, `processAIChat`) -/

/-- A raw tool call of the model's reply: the arguments are still an
unparsed JSON string. -/
structure RawToolCall where
  id : String
  name : String
  arguments : String
deriving DecidableEq, Repr

/-- `choices[i].message` of the upstream reply. -/
structure ChoiceMessage where
  content : Option String
  tool_calls : Option (List RawToolCall)
deriving DecidableEq, Repr

/-- The upstream model reply. -/
structure OpenRouterResponse where
  choices : List ChoiceMessage
deriving DecidableEq, Repr

/-- The adapter's output. -/
structure AIResponse where
  message : String
  toolCalls : Option (List ToolCall)

/-- Fallback when the reply carries no text content. -/
def apologyNoContent : String :=
  "I apologize, but I couldn\x27t process your request."

/-- Fallback returned by the adapter's catch block. -/
def apologyError : String :=
  "I apologize, but I encountered an error processing your request. Please try again."

/-- `JSON.parse(call.function.arguments)` inside the adapter's `map`: a
parse failure throws out of the surrounding `try`. -/
def parseToolCall (c : RawToolCall) : Except Unit ToolCall :=
  match jsonParse c.arguments with
  | some v => .ok { id := c.id, function := c.name, arguments := v }
  | none => .error ()

/-- Body of `processAIChat`'s `try` block.  The upstream call
(`callOpenRouter`) either throws — network error, timeout, or a
non-success HTTP status — or yields a reply; an empty `choices` also
throws (`'No response from AI model'`). -/
def processAIChatTry (upstream : Except Unit OpenRouterResponse) :
    Except Unit AIResponse := do
  let resp ← upstream
  match resp.choices.head? with
  | none => .error ()
  | some choice =>
    let message := match choice.content with
      | some s => if s = "" then apologyNoContent else s
      | none => apologyNoContent
    match choice.tool_calls with
    | some calls =>
      if calls.length > 0 then do
        let toolCalls ← calls.mapM parseToolCall
        .ok { message := message, toolCalls := some toolCalls }
      else .ok { message := message, toolCalls := none }
    | none => .ok { message := message, toolCalls := none }

/-- `processAIChat` (email.ts).  `input` and `tasks` shape only the
outbound prompt, whose effect is the `upstream` outcome; any error in
the `try` block degrades to the fixed apology with no tool calls. -/
def processAIChat (input : ChatRequestInput) (tasks : List Task)
    (upstream : Except Unit OpenRouterResponse) : AIResponse :=
  match input, tasks, processAIChatTry upstream with
  | _, _, .ok r => r
  | _, _, .error _ => { message := apologyError, toolCalls := none }

/-! ### The route handler (src/unnamed/part_005, `POST`) -/

/-- A response body: the success shape
`\x7b response, toolResults, executedTools \x7d` or the failure shape
`\x7b error \x7d`. -/
inductive HandlerBody where
  | ok (response : String) (toolResults : List ToolResult) (executedTools : Nat)
  | err (error : String)

/-- An HTTP response of the route. -/
structure HttpResponse where
  status : Nat
  body : HandlerBody

/-- The `POST` handler.  `auth` models the identity provider
(`supabase.auth.getUser` for a bearer token); `body` is the parsed JSON
request body; `upstream` is the external model's behaviour for this
request.  A throw from `validateChatRequest` reaches the outer catch,
which answers 400 only when the message mentions validation — which no
zod issue message does — and 500 otherwise. -/
def POST (auth : String → Option String) (st : Store) (now tz : Int)
    (body : JValue) (authHeader : Option String)
    (upstream : Except Unit OpenRouterResponse) : HttpResponse × Store :=
  match validateChatRequest body with
  | .error e =>
    (if strContains e "validation" then
       { status := 400, body := .err "Invalid request format" }
     else
       { status := 500, body := .err "Internal server error" }, st)
  | .ok req =>
    match authHeader with
    | none =>
      ({ status := 401,
         body := .err "Missing or invalid authorization header" }, st)
    | some h =>
      if !(strStartsWith h "Bearer ") then
        ({ status := 401,
           body := .err "Missing or invalid authorization header" }, st)
      else
        match auth (strDrop h 7) with
        | none =>
          ({ status := 401, body := .err "Invalid or expired token" }, st)
        | some uid =>
          let (tasks, st₁) := listTasks st uid {}
          let ai := processAIChat req tasks upstream
          match ai.toolCalls with
          | some calls =>
            if calls.length > 0 then
              let (toolResults, st₂) := execToolCalls uid now tz st₁ calls
              ({ status := 200,
                 body := .ok ai.message toolResults calls.length }, st₂)
            else
              ({ status := 200, body := .ok ai.message [] 0 }, st₁)
          | none =>
            ({ status := 200, body := .ok ai.message [] 0 }, st₁)

/-! ## Theorems -/

/-! ### Shared executor lemmas -/

/-- Unfolding one iteration of the tool loop. -/
theorem execToolCalls_cons (uid : String) (now tz : Int) (st : Store)
    (tc : ToolCall) (rest : List ToolCall) :
    execToolCalls uid now tz st (tc :: rest) =
      ((execToolCall st uid now tz tc).1 ::
        (execToolCalls uid now tz (execToolCall st uid now tz tc).2 rest).1,
       (execToolCalls uid now tz (execToolCall st uid now tz tc).2 rest).2) :=
  rfl

/-- The loop emits exactly one result per invocation. -/
theorem execToolCalls_length (uid : String) (now tz : Int) :
    ∀ (cs : List ToolCall) (st : Store),
      (execToolCalls uid now tz st cs).1.length = cs.length := by
  intro cs
  induction cs with
  | nil => intro st; rfl
  | cons tc rest ih =>
    intro st
    rw [execToolCalls_cons]
    simp [ih]

/-- Every result is tagged with the name of the invocation it answers. -/
theorem execToolCall_tool (st : Store) (uid : String) (now tz : Int)
    (tc : ToolCall) : (execToolCall st uid now tz tc).1.tool = tc.function := by
  unfold execToolCall
  split <;> rename_i h <;> (repeat' split) <;> (first | rfl | rw [h])

/-- Result order matches invocation order: the tags of the result list
are the invocation names, positionally. -/
theorem execToolCalls_tools (uid : String) (now tz : Int) :
    ∀ (cs : List ToolCall) (st : Store),
      (execToolCalls uid now tz st cs).1.map (fun r => r.tool) =
        cs.map (fun c => c.function) := by
  intro cs
  induction cs with
  | nil => intro st; rfl
  | cons tc rest ih =>
    intro st
    rw [execToolCalls_cons]
    simp [ih, execToolCall_tool]

/-- The loop processes invocations independently and in order: the
results of any decomposition `pre ++ post` are the results of `pre`
followed by the results of `post` run from the state `pre` left behind,
whatever successes or failures `pre` produced. -/
theorem execToolCalls_append (uid : String) (now tz : Int) :
    ∀ (pre post : List ToolCall) (st : Store),
      execToolCalls uid now tz st (pre ++ post) =
        ((execToolCalls uid now tz st pre).1 ++
          (execToolCalls uid now tz (execToolCalls uid now tz st pre).2 post).1,
         (execToolCalls uid now tz (execToolCalls uid now tz st pre).2 post).2) := by
  intro pre
  induction pre with
  | nil => intro post st; rfl
  | cons tc rest ih =>
    intro post st
    rw [List.cons_append, execToolCalls_cons, execToolCalls_cons, ih]
    simp

/-! ### C1 -/

/-- C1: for every request whose model reply proposes `N` operation
invocations (`N ≥ 0`), the handler's response carries exactly `N`
`toolResults` entries, positionally matching the proposed invocations
(each a success/failure record), `executedTools = N`, and each
invocation executes regardless of earlier invocations' failures (the
results of any suffix are exactly the execution of that suffix from the
intermediate state). -/
theorem c1_one_result_per_invocation
    (auth : String → Option String) (st : Store) (now tz : Int)
    (body : JValue) (hdr : String)
    (upstream : Except Unit OpenRouterResponse)
    (req : ChatRequestInput) (uid : String) (calls : List ToolCall)
    (hbody : validateChatRequest body = .ok req)
    (hauth : strStartsWith hdr "Bearer " = true)
    (huser : auth (strDrop hdr 7) = some uid)
    (hcalls : (processAIChat req (listTasks st uid {}).1 upstream).toolCalls =
      some calls) :
    ∃ results st',
      POST auth st now tz body (some hdr) upstream =
        ({ status := 200,
           body := .ok (processAIChat req (listTasks st uid {}).1 upstream).message
             results calls.length }, st')
      ∧ results.length = calls.length
      ∧ results.map (fun r => r.tool) = calls.map (fun c => c.function)
      ∧ ∀ pre post, calls = pre ++ post →
          results =
            (execToolCalls uid now tz (listTasks st uid {}).2 pre).1 ++
            (execToolCalls uid now tz
              (execToolCalls uid now tz (listTasks st uid {}).2 pre).2 post).1 := by
  refine ⟨(execToolCalls uid now tz (listTasks st uid {}).2 calls).1,
    (execToolCalls uid now tz (listTasks st uid {}).2 calls).2, ?_, ?_, ?_, ?_⟩
  · unfold POST
    rw [hbody]
    simp only [hauth, huser, hcalls, Bool.not_true, Bool.false_eq_true,
      if_false]
    cases calls with
    | nil => rfl
    | cons tc rest => simp
  · exact execToolCalls_length uid now tz calls _
  · exact execToolCalls_tools uid now tz calls _
  · intro pre post hsplit
    rw [hsplit, execToolCalls_append]

/-! ### C2 -/

/-- C2: when the external language-model call fails (network error,
timeout, or non-success HTTP status — all of which make `callOpenRouter`
throw), the adapter does not throw to the caller and the handler still
answers HTTP 200 with the fixed fallback apology as `response`, empty
`toolResults`, and `executedTools = 0`. -/
theorem c2_upstream_failure_degrades_gracefully
    (auth : String → Option String) (st : Store) (now tz : Int)
    (body : JValue) (hdr : String)
    (req : ChatRequestInput) (uid : String)
    (hbody : validateChatRequest body = .ok req)
    (hauth : strStartsWith hdr "Bearer " = true)
    (huser : auth (strDrop hdr 7) = some uid) :
    POST auth st now tz body (some hdr) (.error ()) =
      ({ status := 200, body := .ok apologyError [] 0 },
       (listTasks st uid {}).2) := by
  unfold POST
  rw [hbody]
  simp only [hauth, huser, Bool.not_true, Bool.false_eq_true, if_false]
  rfl

/-! ### Concrete fixtures for witnesses and counterexamples -/

/-- A concrete stored task. -/
def wTask : Task where
  id := "task-a"
  user_id := "u1"
  title := "Pay rent"
  description := some "October rent"
  due_at := some "2025-10-10T10:00:00Z"
  status := .pending
  priority := none
  category := none
  tags := none
  estimated_duration_minutes := none
  notes := none
  created_at := 0
  updated_at := 0
  last_reminder_sent := none

/-- A concrete store holding `wTask`. -/
def wStore : Store := { tasks := [wTask], nextId := 1, log := [] }

/-- A concrete identity provider: token `tok` belongs to user `u1`. -/
def wAuth : String → Option String :=
  fun t => if t = "tok" then some "u1" else none

/-- A concrete well-formed request body. -/
def wBody : JValue := .obj [("message", .str "hello")]

/-- A model reply proposing three invocations: a `create_task` whose
arguments fail validation, an unknown operation, and a well-formed
`list_tasks`. -/
def wResp : OpenRouterResponse :=
  { choices := [{ content := some "done",
                  tool_calls := some [
                    { id := "call-1", name := "create_task", arguments := "null" },
                    { id := "call-2", name := "frobnicate", arguments := "1" },
                    { id := "call-3", name := "list_tasks", arguments := "2" }] }] }

/-- The parsed form of `wResp`'s proposed invocations. -/
def wCalls : List ToolCall :=
  [{ id := "call-1", function := "create_task", arguments := .null },
   { id := "call-2", function := "frobnicate", arguments := .num 1 true },
   { id := "call-3", function := "list_tasks", arguments := .num 2 true }]

/-- C1 witness: the concrete three-invocation request (one failing
validation, one unknown, one succeeding) yields exactly three ordered
results and `executedTools = 3`. -/
theorem c1_witness :
    ∃ results st',
      POST wAuth wStore 100 0 wBody (some "Bearer tok") (.ok wResp) =
        ({ status := 200,
           body := .ok (processAIChat { message := "hello" }
               (listTasks wStore "u1" {}).1 (.ok wResp)).message
             results wCalls.length }, st')
      ∧ results.length = wCalls.length
      ∧ results.map (fun r => r.tool) = wCalls.map (fun c => c.function)
      ∧ ∀ pre post, wCalls = pre ++ post →
          results =
            (execToolCalls "u1" 100 0 (listTasks wStore "u1" {}).2 pre).1 ++
            (execToolCalls "u1" 100 0
              (execToolCalls "u1" 100 0 (listTasks wStore "u1" {}).2 pre).2 post).1 :=
  c1_one_result_per_invocation wAuth wStore 100 0 wBody "Bearer tok"
    (.ok wResp) { message := "hello" } "u1" wCalls rfl rfl rfl rfl

/-- C2 witness: with a valid body and credential and a failing upstream
call, the concrete request gets HTTP 200, the fixed apology, no tool
results. -/
theorem c2_witness :
    POST wAuth wStore 0 0 wBody (some "Bearer tok") (.error ()) =
      ({ status := 200, body := .ok apologyError [] 0 },
       (listTasks wStore "u1" {}).2) :=
  c2_upstream_failure_degrades_gracefully wAuth wStore 0 0 wBody "Bearer tok"
    { message := "hello" } "u1" rfl rfl rfl

/-! ### C4 -/

/-- C4 (code bug): a malformed body — here the empty object, which lacks
the required `message` field — makes `validateChatRequest` throw the zod
issue message `Required`; the catch block's test for the word
v-a-l-i-d-a-t-i-o-n in the message does not match any zod issue message,
so the handler answers HTTP 500 `Internal server error` instead of the
specified 400. -/
theorem c4_malformed_body_yields_500 :
    validateChatRequest (.obj []) = .error "Required" ∧
    strContains "Required" "validation" = false ∧
    POST wAuth wStore 0 0 (.obj []) (some "Bearer tok") (.error ()) =
      ({ status := 500, body := .err "Internal server error" }, wStore) :=
  ⟨rfl, rfl, rfl⟩

/-! ### C3 -/

/-- The `list_tasks` invocation whose `due_filter` value `someday` lies
outside the catalog's declared enum `today | overdue | upcoming`. -/
def c3Call : ToolCall :=
  { id := "call-9", function := "list_tasks",
    arguments := .obj [("due_filter", .str "someday")] }

/-- C3 counterexample: `c3Call`'s argument bag violates the declared
parameter shape of `list_tasks`, yet the executor records a success (no
validation error) and does access the task store (a select is logged) —
refuting the claim that every shape-violating invocation yields a
failure carrying the validation error with no store access. -/
theorem c3_counterexample :
    (execToolCall wStore "u1" 100 0 c3Call).1.success = true ∧
    (execToolCall wStore "u1" 100 0 c3Call).1.error = none ∧
    (execToolCall wStore "u1" 100 0 c3Call).2.log = [StoreOp.select] :=
  ⟨rfl, rfl, rfl⟩

/-- C3 as amended: only `create_task` and `update_task` run a schema
validation over their argument bags (for `update_task`, over the bag
without `task_id`); when that validation fails, the executor records a
failure result carrying the validation error and performs no task-store
access (`list_tasks` arguments are never validated — out-of-enum values
are silently ignored — and `task_id` itself is not validated). -/
theorem c3_amended_validation_failure_no_store_access
    (st : Store) (uid : String) (now tz : Int) (tc : ToolCall) (e : String)
    (h : (tc.function = "create_task" ∧ validateCreateTask tc.arguments = .error e)
       ∨ (tc.function = "update_task" ∧ ∃ fs, tc.arguments = .obj fs ∧
            validateUpdateTask (.obj (jRemoveKey fs "task_id")) = .error e)) :
    (execToolCall st uid now tz tc).1.success = false ∧
    (execToolCall st uid now tz tc).1.error = some e ∧
    (execToolCall st uid now tz tc).2 = st := by
  rcases h with ⟨hf, hv⟩ | ⟨hf, fs, hargs, hv⟩
  · simp [execToolCall, hf, createTask, hv]
  · simp [execToolCall, hf, hargs, updateTask, hv]

/-- C3 witness: a `create_task` with an empty argument bag (missing the
required `title`) yields a failure carrying the zod error and leaves the
store untouched. -/
theorem c3_witness :
    (execToolCall wStore "u1" 7 0
        { id := "call-4", function := "create_task", arguments := .obj [] }).1.success = false ∧
    (execToolCall wStore "u1" 7 0
        { id := "call-4", function := "create_task", arguments := .obj [] }).1.error =
      some "Required" ∧
    (execToolCall wStore "u1" 7 0
        { id := "call-4", function := "create_task", arguments := .obj [] }).2 = wStore :=
  c3_amended_validation_failure_no_store_access wStore "u1" 7 0
    { id := "call-4", function := "create_task", arguments := .obj [] }
    "Required" (Or.inl ⟨rfl, rfl⟩)

/-! ### C7 -/

/-- A `delete_task` invocation naming an id no task of the caller has. -/
def c7Call : ToolCall :=
  { id := "call-7", function := "delete_task",
    arguments := .obj [("task_id", .str "task-zzz")] }

/-- C7 counterexample: no stored task has id `task-zzz`, yet the delete
invocation's result is a success carrying `deleted: true` and no error —
refuting the claim that the store's delete reports not-found and that
the `OperationResult` is a failure. -/
theorem c7_counterexample :
    (∀ t ∈ wStore.tasks, t.id ≠ "task-zzz") ∧
    (execToolCall wStore "u1" 0 0 c7Call).1.success = true ∧
    (execToolCall wStore "u1" 0 0 c7Call).1.error = none ∧
    (execToolCall wStore "u1" 0 0 c7Call).2.tasks = wStore.tasks :=
  ⟨by decide, rfl, rfl, rfl⟩

/-- C7 as amended: `deleteTask` is a filtered delete with no row-count
check, so — whether or not the id names an existing task — the
invocation succeeds with `deleted: true` and the store simply drops
whatever rows matched. -/
theorem c7_amended_delete_always_succeeds
    (st : Store) (uid : String) (now tz : Int) (cid : String) (args : JValue)
    (h : args ≠ .null) :
    (execToolCall st uid now tz
        { id := cid, function := "delete_task", arguments := args }).1.success = true ∧
    (execToolCall st uid now tz
        { id := cid, function := "delete_task", arguments := args }).1.data =
      some .deleted ∧
    (execToolCall st uid now tz
        { id := cid, function := "delete_task", arguments := args }).1.error = none ∧
    (execToolCall st uid now tz
        { id := cid, function := "delete_task", arguments := args }).2.tasks =
      st.tasks.filter
        (fun t => !(t.user_id == uid && idMatches (jGet args "task_id") t)) := by
  cases args with
  | null => exact absurd rfl h
  | bool b => exact ⟨rfl, rfl, rfl, rfl⟩
  | num n i => exact ⟨rfl, rfl, rfl, rfl⟩
  | nan => exact ⟨rfl, rfl, rfl, rfl⟩
  | str s => exact ⟨rfl, rfl, rfl, rfl⟩
  | arr xs => exact ⟨rfl, rfl, rfl, rfl⟩
  | obj fs => exact ⟨rfl, rfl, rfl, rfl⟩

/-- C7 witness: the amended statement at the concrete nonexistent id. -/
theorem c7_witness :
    (execToolCall wStore "u1" 0 0
        { id := "call-7", function := "delete_task",
          arguments := .obj [("task_id", .str "task-zzz")] }).1.success = true ∧
    (execToolCall wStore "u1" 0 0
        { id := "call-7", function := "delete_task",
          arguments := .obj [("task_id", .str "task-zzz")] }).1.data =
      some .deleted ∧
    (execToolCall wStore "u1" 0 0
        { id := "call-7", function := "delete_task",
          arguments := .obj [("task_id", .str "task-zzz")] }).1.error = none ∧
    (execToolCall wStore "u1" 0 0
        { id := "call-7", function := "delete_task",
          arguments := .obj [("task_id", .str "task-zzz")] }).2.tasks =
      wStore.tasks.filter
        (fun t => !(t.user_id == "u1" &&
          idMatches (jGet (.obj [("task_id", .str "task-zzz")]) "task_id") t)) :=
  c7_amended_delete_always_succeeds wStore "u1" 0 0 "call-7"
    (.obj [("task_id", .str "task-zzz")]) (fun hcon => nomatch hcon)

/-! ### C9 -/

/-- C9: whatever optional arguments a valid `create_task` bag carries,
the inserted row has only the title, the due date (or null), status
`pending` and the caller's user id; `description`, `priority`,
`category`, `tags`, `estimated_duration_minutes` and `notes` are
discarded and the created task has them null. -/
theorem c9_create_discards_optional_fields
    (st : Store) (uid : String) (now : Int) (args : JValue)
    (v : CreateTaskInput) (hv : validateCreateTask args = .ok v) :
    ∃ t, (createTask st uid now args).1 = .ok t
      ∧ (createTask st uid now args).2.tasks = st.tasks ++ [t]
      ∧ t.title = v.title ∧ t.due_at = dueAtOrNull v.due_at
      ∧ t.status = .pending ∧ t.user_id = uid
      ∧ t.description = none ∧ t.priority = none ∧ t.category = none
      ∧ t.tags = none ∧ t.estimated_duration_minutes = none
      ∧ t.notes = none := by
  simp only [createTask, hv]
  exact ⟨_, rfl, rfl, rfl, rfl, rfl, rfl, rfl, rfl, rfl, rfl, rfl, rfl⟩

/-- A `create_task` argument bag with every optional field present and
valid. -/
def c9Args : JValue :=
  .obj [("title", .str "Write report"),
        ("description", .str "Q3 report"),
        ("due_at", .str "2025-12-01T09:00:00Z"),
        ("priority", .str "high"),
        ("category", .str "work"),
        ("tags", .arr [.str "deep-work"]),
        ("estimated_duration_minutes", .num 30 true),
        ("notes", .str "ask finance first")]

/-- The validated form of `c9Args`. -/
def c9Input : CreateTaskInput where
  title := "Write report"
  description := some "Q3 report"
  due_at := some (some "2025-12-01T09:00:00Z")
  priority := some .high
  category := some .work
  tags := some ["deep-work"]
  estimated_duration_minutes := some 30
  notes := some "ask finance first"

/-- C9 witness: the fully-populated bag validates, yet the created row
keeps only title/due_at/status/user_id. -/
theorem c9_witness :
    ∃ t, (createTask wStore "u1" 50 c9Args).1 = .ok t
      ∧ (createTask wStore "u1" 50 c9Args).2.tasks = wStore.tasks ++ [t]
      ∧ t.title = c9Input.title ∧ t.due_at = dueAtOrNull c9Input.due_at
      ∧ t.status = .pending ∧ t.user_id = "u1"
      ∧ t.description = none ∧ t.priority = none ∧ t.category = none
      ∧ t.tags = none ∧ t.estimated_duration_minutes = none
      ∧ t.notes = none :=
  c9_create_discards_optional_fields wStore "u1" 50 c9Args c9Input rfl

/-! ### C8 -/

/-- `applyUpdate` never touches the row id. -/
theorem applyUpdate_id (t : Task) (v : UpdateTaskInput) (now : Int) :
    (applyUpdate t v now).id = t.id := rfl

/-- `applyUpdate` never touches the owner. -/
theorem applyUpdate_user_id (t : Task) (v : UpdateTaskInput) (now : Int) :
    (applyUpdate t v now).user_id = t.user_id := rfl

/-- Tasks present after a `createTask` were either already present or
were just created with the caller as owner. -/
theorem mem_createTask_tasks {st : Store} {uid : String} {now : Int}
    {input : JValue} {t' : Task}
    (h : t' ∈ (createTask st uid now input).2.tasks) :
    t' ∈ st.tasks ∨ t'.user_id = uid := by
  unfold createTask at h
  split at h
  · exact Or.inl h
  · simp only at h
    rcases List.mem_append.mp h with h₁ | h₂
    · exact Or.inl h₁
    · rcases List.mem_singleton.mp h₂ with rfl
      exact Or.inr rfl

/-- Every task present after an `updateTask` descends from a stored
task with the same id and the same owner. -/
theorem mem_updateTask_tasks {st : Store} {uid : String} {now : Int}
    {tid : Option JValue} {input : JValue} {t' : Task}
    (h : t' ∈ (updateTask st uid now tid input).2.tasks) :
    ∃ t ∈ st.tasks, t.id = t'.id ∧ t.user_id = t'.user_id := by
  unfold updateTask at h
  split at h
  · exact ⟨t', h, rfl, rfl⟩
  · dsimp only at h
    split at h <;>
    · rcases List.mem_map.mp h with ⟨t, ht, heq⟩
      by_cases hc : (t.user_id == uid && idMatches tid t) = true
      · refine ⟨t, ht, ?_, ?_⟩ <;> rw [← heq, if_pos hc] <;> rfl
      · refine ⟨t, ht, ?_, ?_⟩ <;> rw [← heq, if_neg hc]

/-- Deletion only removes rows. -/
theorem mem_deleteTask_tasks {st : Store} {uid : String}
    {tid : Option JValue} {t' : Task}
    (h : t' ∈ (deleteTask st uid tid).2.tasks) : t' ∈ st.tasks :=
  List.mem_of_mem_filter h

/-- Listing leaves the rows untouched. -/
theorem execListTasks_tasks (st : Store) (uid : String) (now tz : Int)
    (args : JValue) : (execListTasks st uid now tz args).2.tasks = st.tasks := by
  unfold execListTasks
  split
  · rfl
  · dsimp only
    split <;> rfl

/-- C8: owner immutability.  Whatever invocation runs — in particular an
`update_task` whose argument bag smuggles a `user_id` or `id` field —
every task in the resulting store either descends from a stored task
with the same id and the same owner, or is a task freshly created by
this invocation and owned by the caller.  No operation changes a task's
owner after creation. -/
theorem c8_owner_immutable
    (st : Store) (uid : String) (now tz : Int) (tc : ToolCall) (t' : Task)
    (h : t' ∈ (execToolCall st uid now tz tc).2.tasks) :
    (∃ t ∈ st.tasks, t.id = t'.id ∧ t.user_id = t'.user_id)
    ∨ t'.user_id = uid := by
  unfold execToolCall at h
  split at h
  -- create_task
  · split at h <;>
    · rename_i heq
      have h' : t' ∈ (createTask st uid now tc.arguments).2.tasks := by
        rw [heq]; exact h
      rcases mem_createTask_tasks h' with h₁ | h₂
      · exact Or.inl ⟨t', h₁, rfl, rfl⟩
      · exact Or.inr h₂
  -- update_task
  · split at h
    · exact Or.inl ⟨t', h, rfl, rfl⟩
    · rename_i fs heqargs
      split at h <;>
      · rename_i st₂ heq₂
        have h' : t' ∈ (updateTask st uid now (jLookup fs "task_id")
            (.obj (jRemoveKey fs "task_id"))).2.tasks := by
          rw [heq₂]; exact h
        exact Or.inl (mem_updateTask_tasks h')
    · split at h <;>
      · rename_i st₂ heq₂
        have h' : t' ∈ (updateTask st uid now none (.obj [])).2.tasks := by
          rw [heq₂]; exact h
        exact Or.inl (mem_updateTask_tasks h')
  -- delete_task
  · split at h
    · exact Or.inl ⟨t', h, rfl, rfl⟩
    · rename_i tid heqProp
      split at h <;>
      · rename_i st₂ heq₂
        have h' : t' ∈ (deleteTask st uid tid).2.tasks := by
          rw [heq₂]; exact h
        exact Or.inl ⟨t', mem_deleteTask_tasks h', rfl, rfl⟩
  -- list_tasks
  · split at h <;>
    · rename_i st₂ heq₂
      have h' : t' ∈ (execListTasks st uid now tz tc.arguments).2.tasks := by
        rw [heq₂]; exact h
      rw [execListTasks_tasks] at h'
      exact Or.inl ⟨t', h', rfl, rfl⟩
  -- unknown operation
  · exact Or.inl ⟨t', h, rfl, rfl⟩

/-- The update invocation that tries to change the owner. -/
def c8Call : ToolCall :=
  { id := "call-8", function := "update_task",
    arguments := .obj [("task_id", .str "task-a"), ("user_id", .str "evil")] }

/-- The task `wTask` after `c8Call` runs at time 9: only `updated_at`
changes — the smuggled `user_id` is stripped by the validator. -/
def c8Updated : Task := { wTask with updated_at := 9 }

/-- C8 witness: after an `update_task` carrying `user_id: "evil"`, the
updated row still belongs to `u1`. -/
theorem c8_witness :
    (∃ t ∈ wStore.tasks, t.id = c8Updated.id ∧ t.user_id = c8Updated.user_id)
    ∨ c8Updated.user_id = "u1" :=
  c8_owner_immutable wStore "u1" 9 0 c8Call c8Updated (by decide)

/-! ### C10 -/

/-- `mapM` over the adapter's per-call JSON parse fails as a whole as
soon as any single arguments string fails to parse. -/
theorem mapM_loop_parseToolCall_error :
    ∀ (calls : List RawToolCall) (acc : List ToolCall),
      (∃ c ∈ calls, jsonParse c.arguments = none) →
      List.mapM.loop parseToolCall calls acc = .error () := by
  intro calls
  induction calls with
  | nil => rintro acc ⟨c, hc, _⟩; cases hc
  | cons a rest ih =>
    rintro acc ⟨c, hc, hp⟩
    rcases List.mem_cons.mp hc with rfl | hmem
    · have ha : parseToolCall c = .error () := by
        unfold parseToolCall; rw [hp]
      simp [List.mapM.loop, ha, Bind.bind, Except.bind]
    · cases hfa : parseToolCall a with
      | error e => simp [List.mapM.loop, hfa, Bind.bind, Except.bind]
      | ok b =>
        simp only [List.mapM.loop, hfa, Bind.bind, Except.bind]
        exact ih (b :: acc) ⟨c, hmem, hp⟩

/-- `mapM` over the adapter's per-call JSON parse fails as a whole as
soon as any single arguments string fails to parse. -/
theorem mapM_parseToolCall_error (calls : List RawToolCall)
    (h : ∃ c ∈ calls, jsonParse c.arguments = none) :
    calls.mapM parseToolCall = .error () :=
  mapM_loop_parseToolCall_error calls [] h

/-- C10: if the model's reply contains at least one tool call whose
arguments string is not valid JSON, the `JSON.parse` throw escapes the
adapter's mapping and lands in its catch: `processAIChat` returns the
fixed apology with no tool calls at all — every proposed invocation of
that reply, the well-formed ones included, is dropped rather than
reported as a per-invocation failure. -/
theorem c10_bad_arguments_json_drops_all_invocations
    (input : ChatRequestInput) (tasks : List Task)
    (resp : OpenRouterResponse) (choice : ChoiceMessage)
    (calls : List RawToolCall)
    (h₁ : resp.choices.head? = some choice)
    (h₂ : choice.tool_calls = some calls)
    (h₃ : ∃ c ∈ calls, jsonParse c.arguments = none) :
    processAIChat input tasks (.ok resp) =
      { message := apologyError, toolCalls := none } := by
  have hlen : calls.length > 0 := by
    rcases h₃ with ⟨c, hc, _⟩
    cases calls with
    | nil => cases hc
    | cons a rest => exact Nat.succ_pos _
  have key : processAIChatTry (.ok resp) = .error () := by
    unfold processAIChatTry
    rw [show ((.ok resp : Except Unit OpenRouterResponse) >>= fun r =>
        (match r.choices.head? with
         | none => (.error () : Except Unit AIResponse)
         | some choice =>
           let message := match choice.content with
             | some s => if s = "" then apologyNoContent else s
             | none => apologyNoContent
           match choice.tool_calls with
           | some calls =>
             if calls.length > 0 then do
               let toolCalls ← calls.mapM parseToolCall
               .ok { message := message, toolCalls := some toolCalls }
             else .ok { message := message, toolCalls := none }
           | none => .ok { message := message, toolCalls := none })) =
        (match resp.choices.head? with
         | none => (.error () : Except Unit AIResponse)
         | some choice =>
           let message := match choice.content with
             | some s => if s = "" then apologyNoContent else s
             | none => apologyNoContent
           match choice.tool_calls with
           | some calls =>
             if calls.length > 0 then do
               let toolCalls ← calls.mapM parseToolCall
               .ok { message := message, toolCalls := some toolCalls }
             else .ok { message := message, toolCalls := none }
           | none => .ok { message := message, toolCalls := none }) from rfl]
    rw [h₁]
    dsimp only
    rw [h₂]
    dsimp only
    rw [if_pos hlen, mapM_parseToolCall_error calls h₃]
    rfl
  unfold processAIChat
  rw [key]

/-- A reply mixing one well-formed and one malformed arguments string. -/
def c10Resp : OpenRouterResponse :=
  { choices := [{ content := some "on it",
                  tool_calls := some [
                    { id := "call-a", name := "list_tasks", arguments := "null" },
                    { id := "call-b", name := "create_task",
                      arguments := "not json" }] }] }

/-- C10 witness: the concrete mixed reply collapses to the apology with
no tool calls. -/
theorem c10_witness :
    processAIChat { message := "hi" } [] (.ok c10Resp) =
      { message := apologyError, toolCalls := none } :=
  c10_bad_arguments_json_drops_all_invocations { message := "hi" } []
    c10Resp
    { content := some "on it",
      tool_calls := some [
        { id := "call-a", name := "list_tasks", arguments := "null" },
        { id := "call-b", name := "create_task", arguments := "not json" }] }
    [{ id := "call-a", name := "list_tasks", arguments := "null" },
     { id := "call-b", name := "create_task", arguments := "not json" }]
    rfl rfl
    ⟨{ id := "call-b", name := "create_task", arguments := "not json" },
     by decide, rfl⟩

/-! ### C6 -/

/-- A valid `create_task` bag carrying a description. -/
def c6Args : JValue :=
  .obj [("title", .str "Call mom"), ("description", .str "Sunday call")]

/-- C6 counterexample: the bag validates with `description = "Sunday
call"`, the creation succeeds and the immediate unfiltered listing
includes the created task — but its `description` is not the one given
at creation (it is null), refuting "field values identical to those
given at creation (excepting the server-assigned id and timestamps)". -/
theorem c6_counterexample :
    ∃ v, validateCreateTask c6Args = .ok v ∧ v.description = some "Sunday call"
    ∧ ∃ t st', createTask wStore "u1" 60 c6Args = (.ok t, st')
       ∧ t ∈ (listTasks st' "u1" {}).1 ∧ t.description ≠ some "Sunday call" := by
  refine ⟨_, rfl, rfl, _, _, rfl, ?_, by decide⟩
  unfold listTasks
  dsimp only
  refine (List.mergeSort_perm _ _).mem_iff.mpr ?_
  refine List.mem_filter.mpr
    ⟨List.mem_append_right _ (List.mem_singleton.mpr rfl), ?_⟩
  simp

/-- C6 as amended: creating a task from any valid input and immediately
listing with no filter yields a list including the created task, whose
title, due date (or null) and `pending` status match the input and whose
owner is the caller — while every other optional input field is
discarded and null on the created task (excepting the server-assigned id
and timestamps). -/
theorem c6_amended_roundtrip
    (st : Store) (uid : String) (now : Int) (args : JValue)
    (v : CreateTaskInput) (hv : validateCreateTask args = .ok v) :
    ∃ t st', createTask st uid now args = (.ok t, st')
      ∧ t ∈ (listTasks st' uid {}).1
      ∧ t.title = v.title ∧ t.due_at = dueAtOrNull v.due_at
      ∧ t.status = .pending ∧ t.user_id = uid
      ∧ t.description = none ∧ t.priority = none ∧ t.category = none
      ∧ t.tags = none ∧ t.estimated_duration_minutes = none
      ∧ t.notes = none := by
  simp only [createTask, hv]
  refine ⟨_, _, rfl, ?_, rfl, rfl, rfl, rfl, rfl, rfl, rfl, rfl, rfl, rfl⟩
  unfold listTasks
  dsimp only
  refine (List.mergeSort_perm _ _).mem_iff.mpr ?_
  refine List.mem_filter.mpr ⟨List.mem_append_right _ (List.mem_singleton.mpr rfl), ?_⟩
  simp

/-- C6 witness: the amended round-trip at the concrete input. -/
theorem c6_witness :
    ∃ t st', createTask wStore "u1" 60 c6Args = (.ok t, st')
      ∧ t ∈ (listTasks st' "u1" {}).1
      ∧ t.title = "Call mom" ∧ t.due_at = dueAtOrNull (none : Option (Option String))
      ∧ t.status = .pending ∧ t.user_id = "u1"
      ∧ t.description = none ∧ t.priority = none ∧ t.category = none
      ∧ t.tags = none ∧ t.estimated_duration_minutes = none
      ∧ t.notes = none :=
  c6_amended_roundtrip wStore "u1" 60 c6Args
    { title := "Call mom", description := some "Sunday call" } rfl

/-! ### C5

Spec-side predicates, stated from the specification's words ("today =
due date falls within the caller's local calendar day; overdue = due
date strictly before now AND status not done; upcoming = due date
strictly after now AND status not done; search = case-insensitive
substring match over title or description").  A task's due date is the
instant its stored string denotes; a task whose string denotes no
instant has no due date. -/

/-- Spec: the due date falls within the current local calendar day,
i.e. in `[local midnight, next local midnight)`. -/
def specDueToday (tz now : Int) (t : Task) : Prop :=
  ∃ s v, t.due_at = some s ∧ parseIsoDate tz s = some v ∧
    startOfDayUtc tz now ≤ v ∧ v < startOfDayUtc tz now + 86400

/-- Spec: due date strictly before now and status not done. -/
def specOverdue (tz now : Int) (t : Task) : Prop :=
  t.status ≠ .done ∧
  ∃ s v, t.due_at = some s ∧ parseIsoDate tz s = some v ∧ v < now

/-- Spec: due date strictly after now and status not done. -/
def specUpcoming (tz now : Int) (t : Task) : Prop :=
  t.status ≠ .done ∧
  ∃ s v, t.due_at = some s ∧ parseIsoDate tz s = some v ∧ now < v

/-- Spec: case-insensitive substring match over title or description. -/
def specSearchMatch (q : String) (t : Task) : Prop :=
  strContains (lowerStr t.title) (lowerStr q) = true ∨
  ∃ d, t.description = some d ∧ strContains (lowerStr d) (lowerStr q) = true

/-- The `today` in-memory filter coincides with the spec predicate. -/
theorem today_pred_iff (tz now : Int) (t : Task) :
    ((match t.due_at with
      | none => false
      | some ds =>
        match parseIsoDate tz ds with
        | none => false
        | some v =>
          decide (startOfDayUtc tz now ≤ v) &&
          decide (v < startOfDayUtc tz now + 86400)) = true)
    ↔ specDueToday tz now t := by
  unfold specDueToday
  cases hdue : t.due_at with
  | none => simp
  | some ds => cases hp : parseIsoDate tz ds <;> simp [hp]

/-- The `overdue` in-memory filter coincides with the spec predicate. -/
theorem overdue_pred_iff (tz now : Int) (t : Task) :
    ((match t.due_at with
      | none => false
      | some ds =>
        if t.status == TaskStatus.done then false else dateLt tz ds now) = true)
    ↔ specOverdue tz now t := by
  unfold specOverdue dateLt
  cases hdue : t.due_at with
  | none => simp
  | some ds =>
    by_cases hst : t.status = .done
    · simp [hst]
    · simp only [beq_iff_eq, hst, if_false, ne_eq, not_false_iff, true_and]
      cases hp : parseIsoDate tz ds <;> simp [hp]

/-- The `upcoming` in-memory filter coincides with the spec predicate. -/
theorem upcoming_pred_iff (tz now : Int) (t : Task) :
    ((match t.due_at with
      | none => false
      | some ds =>
        if t.status == TaskStatus.done then false else dateGt tz ds now) = true)
    ↔ specUpcoming tz now t := by
  unfold specUpcoming dateGt
  cases hdue : t.due_at with
  | none => simp
  | some ds =>
    by_cases hst : t.status = .done
    · simp [hst]
    · simp only [beq_iff_eq, hst, if_false, ne_eq, not_false_iff, true_and]
      cases hp : parseIsoDate tz ds <;> simp [hp]

/-- The `search` in-memory filter coincides with the spec predicate. -/
theorem search_pred_iff (q : String) (t : Task) :
    ((strContains (lowerStr t.title) (lowerStr q) ||
      (match t.description with
       | some d => strContains (lowerStr d) (lowerStr q)
       | none => false)) = true)
    ↔ specSearchMatch q t := by
  unfold specSearchMatch
  cases hd : t.description <;> simp

/-- C5: over every store and every task set it returns, the executor's
`due_filter` and `search` post-filters have exactly the specified
semantics: `today` keeps the tasks whose due date falls within the
current local calendar day; `overdue` keeps exactly the non-done tasks
whose due date is strictly before now (tasks with no due date are
excluded); `upcoming` keeps the non-done tasks whose due date is
strictly after now; `search` keeps the tasks whose title or description
contains the search string case-insensitively; and a combined
`due_filter` + `search` invocation applies both. -/
theorem c5_list_filters_semantics
    (st : Store) (uid : String) (now tz : Int) (q : String) (hq : q ≠ "") :
    (∃ ts st', execListTasks st uid now tz
        (.obj [("due_filter", .str "today")]) = (.ok ts, st') ∧
      ∀ t, t ∈ ts ↔ t ∈ (listTasks st uid {}).1 ∧ specDueToday tz now t)
  ∧ (∃ ts st', execListTasks st uid now tz
        (.obj [("due_filter", .str "overdue")]) = (.ok ts, st') ∧
      ∀ t, t ∈ ts ↔ t ∈ (listTasks st uid {}).1 ∧ specOverdue tz now t)
  ∧ (∃ ts st', execListTasks st uid now tz
        (.obj [("due_filter", .str "upcoming")]) = (.ok ts, st') ∧
      ∀ t, t ∈ ts ↔ t ∈ (listTasks st uid {}).1 ∧ specUpcoming tz now t)
  ∧ (∃ ts st', execListTasks st uid now tz
        (.obj [("search", .str q)]) = (.ok ts, st') ∧
      ∀ t, t ∈ ts ↔ t ∈ (listTasks st uid {}).1 ∧ specSearchMatch q t)
  ∧ (∃ ts st', execListTasks st uid now tz
        (.obj [("due_filter", .str "overdue"), ("search", .str q)]) =
        (.ok ts, st') ∧
      ∀ t, t ∈ ts ↔ t ∈ (listTasks st uid {}).1 ∧ specOverdue tz now t ∧
        specSearchMatch q t) := by
  have hsf : ∀ L : List Task, searchFilter (some (.str q)) L =
      .ok (L.filter (fun t =>
        strContains (lowerStr t.title) (lowerStr q) ||
        (match t.description with
         | some d => strContains (lowerStr d) (lowerStr q)
         | none => false))) := by
    intro L
    unfold searchFilter
    dsimp only
    rw [if_neg hq]
  have htoday : execListTasks st uid now tz
      (.obj [("due_filter", .str "today")]) =
      (.ok ((listTasks st uid {}).1.filter (fun t =>
        match t.due_at with
        | none => false
        | some ds =>
          match parseIsoDate tz ds with
          | none => false
          | some v =>
            decide (startOfDayUtc tz now ≤ v) &&
            decide (v < startOfDayUtc tz now + 86400))),
       (listTasks st uid {}).2) := rfl
  have hover : execListTasks st uid now tz
      (.obj [("due_filter", .str "overdue")]) =
      (.ok ((listTasks st uid {}).1.filter (fun t =>
        match t.due_at with
        | none => false
        | some ds =>
          if t.status == TaskStatus.done then false else dateLt tz ds now)),
       (listTasks st uid {}).2) := rfl
  have hupc : execListTasks st uid now tz
      (.obj [("due_filter", .str "upcoming")]) =
      (.ok ((listTasks st uid {}).1.filter (fun t =>
        match t.due_at with
        | none => false
        | some ds =>
          if t.status == TaskStatus.done then false else dateGt tz ds now)),
       (listTasks st uid {}).2) := rfl
  have hsearch : execListTasks st uid now tz
      (.obj [("search", .str q)]) =
      (match searchFilter (some (.str q)) ((listTasks st uid {}).1) with
       | .ok res => (.ok res, (listTasks st uid {}).2)
       | .error e => (.error e, (listTasks st uid {}).2)) := rfl
  have hboth : execListTasks st uid now tz
      (.obj [("due_filter", .str "overdue"), ("search", .str q)]) =
      (match searchFilter (some (.str q))
          ((listTasks st uid {}).1.filter (fun t =>
            match t.due_at with
            | none => false
            | some ds =>
              if t.status == TaskStatus.done then false
              else dateLt tz ds now)) with
       | .ok res => (.ok res, (listTasks st uid {}).2)
       | .error e => (.error e, (listTasks st uid {}).2)) := rfl
  rw [hsf] at hsearch hboth
  dsimp only at hsearch hboth
  refine ⟨⟨_, _, htoday, ?_⟩, ⟨_, _, hover, ?_⟩, ⟨_, _, hupc, ?_⟩,
    ⟨_, _, hsearch, ?_⟩, ⟨_, _, hboth, ?_⟩⟩
  · intro t
    rw [List.mem_filter]
    exact and_congr_right fun _ => today_pred_iff tz now t
  · intro t
    rw [List.mem_filter]
    exact and_congr_right fun _ => overdue_pred_iff tz now t
  · intro t
    rw [List.mem_filter]
    exact and_congr_right fun _ => upcoming_pred_iff tz now t
  · intro t
    rw [List.mem_filter]
    exact and_congr_right fun _ => search_pred_iff q t
  · intro t
    rw [List.mem_filter, List.mem_filter, and_assoc]
    exact and_congr_right fun _ =>
      and_congr (overdue_pred_iff tz now t) (search_pred_iff q t)

/-- C5 witness: the filter semantics at a concrete store and time. -/
theorem c5_witness :
    (∃ ts st', execListTasks wStore "u1" 1760300000 0
        (.obj [("due_filter", .str "today")]) = (.ok ts, st') ∧
      ∀ t, t ∈ ts ↔ t ∈ (listTasks wStore "u1" {}).1 ∧
        specDueToday 0 1760300000 t)
  ∧ (∃ ts st', execListTasks wStore "u1" 1760300000 0
        (.obj [("due_filter", .str "overdue")]) = (.ok ts, st') ∧
      ∀ t, t ∈ ts ↔ t ∈ (listTasks wStore "u1" {}).1 ∧
        specOverdue 0 1760300000 t)
  ∧ (∃ ts st', execListTasks wStore "u1" 1760300000 0
        (.obj [("due_filter", .str "upcoming")]) = (.ok ts, st') ∧
      ∀ t, t ∈ ts ↔ t ∈ (listTasks wStore "u1" {}).1 ∧
        specUpcoming 0 1760300000 t)
  ∧ (∃ ts st', execListTasks wStore "u1" 1760300000 0
        (.obj [("search", .str "rent")]) = (.ok ts, st') ∧
      ∀ t, t ∈ ts ↔ t ∈ (listTasks wStore "u1" {}).1 ∧
        specSearchMatch "rent" t)
  ∧ (∃ ts st', execListTasks wStore "u1" 1760300000 0
        (.obj [("due_filter", .str "overdue"), ("search", .str "rent")]) =
        (.ok ts, st') ∧
      ∀ t, t ∈ ts ↔ t ∈ (listTasks wStore "u1" {}).1 ∧
        specOverdue 0 1760300000 t ∧ specSearchMatch "rent" t) :=
  c5_list_filters_semantics wStore "u1" 1760300000 0 "rent"
    (fun hcon => nomatch hcon)

end BasicTodo
